import Mathlib

/-!
# Verification of the Tinkoff E2C integration layer

A shallow embedding of the request-signing and response-normalization
pipeline of the `tinkoff-e2c` library (`tinkoff.py`, `cryptopro.py`),
together with proofs of the specified properties.

Python dictionaries are modelled as insertion-ordered association lists
(`List (String × α)`); Python scalar values appearing in field maps are
modelled by `PyVal`; fallible code returns `Except`; the exception
taxonomy is `PyErr`.
-/

namespace TinkoffE2C

/-- Python scalar values as they appear in request field maps. -/
inductive PyVal where
  | pvStr (s : String)
  | pvInt (n : Int)
  | pvNone
deriving DecidableEq, Repr

/-- Python `str()` coercion for the values appearing in field maps. -/
def pyStr : PyVal → String
  | .pvStr s => s
  | .pvInt n => toString n
  | .pvNone => "None"

/-- A Python `dict` with string keys, as an insertion-ordered association list. -/
abbrev FieldMap := List (String × PyVal)

/-- The keys of an association list, in insertion order (`dict.keys()`). -/
def keysOf {α : Type} (d : List (String × α)) : List String := d.map Prod.fst

/-- Python `d[k] = v`: replace the value in place if the key exists,
otherwise append the new binding at the end. -/
def dictUpdate {α : Type} (d : List (String × α)) (k : String) (v : α) :
    List (String × α) :=
  if (d.map Prod.fst).contains k then
    d.map fun p => if p.1 = k then (k, v) else p
  else d ++ [(k, v)]

/-- Python `d.update(e)`: apply `dictUpdate` for each binding of `e` in order. -/
def dictUpdateMany {α : Type} (d e : List (String × α)) : List (String × α) :=
  e.foldl (fun acc p => dictUpdate acc p.1 p.2) d

/-- Python `sorted(data.keys())`: the keys in ascending lexicographic order. -/
def sortedKeys (d : FieldMap) : List String :=
  List.insertionSort (fun a b => a ≤ b) (keysOf d)

/-- `Tinkoff._get_sign`, line 500: the canonical signing content
`''.join([ str(data[x]) for x in sorted(data.keys()) ])`. -/
def signContent (d : FieldMap) : String :=
  String.join ((sortedKeys d).map fun k => pyStr ((List.lookup k d).getD .pvNone))

/-- JSON values, as decoded from gateway response bodies. -/
inductive Json where
  | null
  | bool (b : Bool)
  | num (n : Int)
  | str (s : String)
  | arr (xs : List Json)
  | obj (fields : List (String × Json))

/-- Python truthiness (`bool(x)`) of a JSON value. -/
def Json.truthy : Json → Bool
  | .null => false
  | .bool b => b
  | .num n => n != 0
  | .str s => !s.isEmpty
  | .arr xs => !xs.isEmpty
  | .obj fs => !fs.isEmpty

/-- `cryptopro.CryptoProError`: message plus integer code (default `-1`). -/
structure CryptoProError where
  message : String
  code : Int
deriving DecidableEq, Repr

/-- `tinkoff.TinkoffError`: message plus the bank's error code
(taken from the JSON body, default the string `"-1"`). -/
structure TinkoffError where
  message : String
  code : Json

/-- The exception taxonomy visible to callers of the library. -/
inductive PyErr where
  | crypto (e : CryptoProError)
  | tinkoff (e : TinkoffError)
  | http (status : Nat)
  | keyError (k : String)
  | typeError
  | osError (filename : String)
  | invocationError

namespace CryptoPro

/-- File contents, as raw bytes. -/
abbrev ByteSeq := List Nat

/-- The filesystem visible to one `get_hash`/`get_sign` call: an association
list from file name to contents. -/
abbrev FS := List (String × ByteSeq)

/-- Outcome of one `subprocess.run` invocation. -/
structure ProcResult where
  returncode : Int
  stdout : String
  stderr : String
deriving DecidableEq, Repr

/-- Behaviour of the external signer process for one invocation: whether
`subprocess.run` itself raises, the completed-process result otherwise, and
the bytes the process writes to its designated output file (if any). -/
structure ProcBehavior where
  raises : Bool
  result : ProcResult
  outBytes : Option ByteSeq
deriving DecidableEq, Repr

/-- Python's `\s` on ASCII input. -/
def isPyWs (c : Char) : Bool :=
  c = ' ' || c = '\t' || c = '\n' || c = '\r' || c = '\x0b' || c = '\x0c'

/-- Match a literal character sequence at the head of the input. -/
def dropLit : List Char → List Char → Option (List Char)
  | [], cs => some cs
  | _ :: _, [] => none
  | l :: ls, c :: cs => if c = l then dropLit ls cs else none

/-- Match `\s+` at the head of the input. -/
def dropWs1 : List Char → Option (List Char)
  | [] => none
  | c :: cs => if isPyWs c then some (cs.dropWhile isPyWs) else none

/-- `[0-9a-f]`. -/
def isLowerHex (c : Char) : Bool := c.isDigit || ('a' ≤ c && c ≤ 'f')

/-- Decimal digits to a number, as Python `int()` on a digit string. -/
def digitsToNat (ds : List Char) : Nat :=
  ds.foldl (fun n c => 10 * n + (c.toNat - 48)) 0

/-- `CryptoPro._get_error`'s line pattern
`^Error\s+number\s+(0x[0-9a-f]+)\s+\((\d+)\)\.\s*$`, returning the captured
decimal number on a match. -/
def matchErrorLine (line : String) : Option Nat :=
  (dropLit "Error".data line.data).bind fun cs =>
  (dropWs1 cs).bind fun cs =>
  (dropLit "number".data cs).bind fun cs =>
  (dropWs1 cs).bind fun cs =>
  (dropLit "0x".data cs).bind fun cs =>
  let hex := cs.takeWhile isLowerHex
  let cs := cs.dropWhile isLowerHex
  if hex.isEmpty then none else
  (dropWs1 cs).bind fun cs =>
  (dropLit "(".data cs).bind fun cs =>
  let ds := cs.takeWhile Char.isDigit
  let cs := cs.dropWhile Char.isDigit
  if ds.isEmpty then none else
  (dropLit ")".data cs).bind fun cs =>
  (dropLit ".".data cs).bind fun cs =>
  if (cs.dropWhile isPyWs).isEmpty then some (digitsToNat ds) else none

/-- `CryptoPro._get_lines`: Python `output.split('\n')`. -/
def getLines (s : String) : List String := (s.data.splitOn '\n').map String.mk

/-- The scanning loop of `CryptoPro._get_error`: accumulates the code from
matching lines and stops at the first non-matching line after a match. -/
def getErrorLoop : List String → Option Nat → Option Nat × Option String
  | [], code => (code, none)
  | l :: ls, code =>
    match matchErrorLine l with
    | some n => getErrorLoop ls (some n)
    | none =>
      match code with
      | some n => (some n, some l)
      | none => getErrorLoop ls none

/-- `CryptoPro._get_error`: parse the stderr of a failed signer invocation
into a coded error. -/
def getError (stderr : String) : CryptoProError :=
  let lines := getLines stderr
  match getErrorLoop lines none with
  | (none, _) => ⟨String.intercalate "\n" lines, -1⟩
  | (some n, none) => ⟨"Error " ++ toString n, (n : Int)⟩
  | (some n, some t) => ⟨t, (n : Int)⟩

/-- `tempfile.NamedTemporaryFile`: a fresh name not present in the
filesystem (here: longer than every existing name). -/
def freshName (fs : FS) : String :=
  String.mk (List.replicate ((fs.map fun p => p.1.length).foldr max 0 + 1) 'a')

/-- Remove the first binding of a key from the filesystem. -/
def eraseKey (k : String) (fs : FS) : FS := fs.eraseP fun p => p.1 == k

/-- `CryptoPro._flush_temp_file`: read a file, delete it, and return its
contents; a missing file is an `OSError` (and nothing is deleted). -/
def flushTempFile (filename : String) (fs : FS) : Except PyErr ByteSeq × FS :=
  match List.lookup filename fs with
  | none => (.error (.osError filename), fs)
  | some content => (.ok content, eraseKey filename fs)

/-- The shared body of `CryptoPro.get_hash` and `CryptoPro.get_sign`:
create the input temp file, invoke the signer process (which writes the
output file on its own), flush the input file, fail on non-zero exit,
then flush and return the output file. -/
def runSignerOp (suffix : String) (pb : ProcBehavior) (content : ByteSeq) (fs : FS) :
    Except PyErr ByteSeq × FS :=
  let in_name := freshName fs
  let fs₁ : FS := (in_name, content) :: fs
  let out_name := in_name ++ suffix
  if pb.raises then
    (.error .invocationError, fs₁)
  else
    let fs₂ : FS :=
      match pb.outBytes with
      | some b => (out_name, b) :: fs₁
      | none => fs₁
    match flushTempFile in_name fs₂ with
    | (.error e, fs₃) => (.error e, fs₃)
    | (.ok _, fs₃) =>
      if pb.result.returncode ≠ 0 then
        (.error (.crypto (getError pb.result.stderr)), fs₃)
      else
        flushTempFile out_name fs₃

/-- `CryptoPro.get_hash`: output file is the input name plus `.hash`. -/
def get_hash (pb : ProcBehavior) (content : ByteSeq) (fs : FS) :
    Except PyErr ByteSeq × FS :=
  runSignerOp ".hash" pb content fs

/-- `CryptoPro.get_sign`: output file is the input name plus `.sign`. -/
def get_sign (pb : ProcBehavior) (content : ByteSeq) (fs : FS) :
    Except PyErr ByteSeq × FS :=
  runSignerOp ".sign" pb content fs

/-- The base64 alphabet character for a 6-bit value. -/
def b64Char (n : Nat) : Char :=
  "ABCDEFGHIJKLMNOPQRSTUVWXYZabcdefghijklmnopqrstuvwxyz0123456789+/".data.getD n 'A'

/-- Standard base64 block encoding of a byte sequence. -/
def b64Chunks : ByteSeq → List Char
  | [] => []
  | [a] => [b64Char (a / 4), b64Char (a % 4 * 16), '=', '=']
  | [a, b] => [b64Char (a / 4), b64Char (a % 4 * 16 + b / 16), b64Char (b % 16 * 4), '=']
  | a :: b :: c :: rest =>
      b64Char (a / 4) :: b64Char (a % 4 * 16 + b / 16) :: b64Char (b % 16 * 4 + c / 64)
        :: b64Char (c % 64) :: b64Chunks rest

/-- `CryptoPro.to_base64` on byte input: `base64.b64encode(value).decode()`. -/
def to_base64 (bs : ByteSeq) : String := String.mk (b64Chunks bs)

/-- Python `s.replace('0x', '')`: remove the non-overlapping occurrences of
`0x`, scanning left to right. -/
def strip0x : List Char → List Char
  | '0' :: 'x' :: rest => strip0x rest
  | c :: rest => c :: strip0x rest
  | [] => []

/-- Python `s.lower()` on ASCII input. -/
def pyLower (s : String) : String := String.mk (s.data.map Char.toLower)

/-- One container record produced by `CryptoPro.get_containers`. -/
structure Container where
  id : String
  name : String
deriving DecidableEq, Repr

/-- A value in a certificate record parsed by `CryptoPro.get_certificates`:
either a scalar string or a list built from continuation lines. -/
inductive CertVal where
  | s (v : String)
  | l (vs : List String)
deriving DecidableEq, Repr

/-- One certificate record: a free-form key-to-value mapping. -/
abbrev Cert := List (String × CertVal)

/-- The first loop of `CryptoPro.get_certificate_serial`: the id of the
first container whose name equals the configured container name. -/
def findContainerId (container_name : String) : List Container → Option String
  | [] => none
  | c :: rest =>
    if c.name = container_name then some c.id else findContainerId container_name rest

/-- The second loop of `CryptoPro.get_certificate_serial`: the `Serial`
value of the first certificate whose `Container` value equals the given id.
`item['Container']` on a record lacking the key raises `KeyError`; a list
value compares unequal to a string and is skipped. -/
def findCertSerial (code : String) : List Cert → Except PyErr (Option CertVal)
  | [] => .ok none
  | c :: rest =>
    match List.lookup "Container" c with
    | none => .error (.keyError "Container")
    | some v =>
      if v = .s code then
        match List.lookup "Serial" c with
        | none => .error (.keyError "Serial")
        | some sv => .ok (some sv)
      else findCertSerial code rest

/-- `CryptoPro.get_certificate_serial`, parameterized by the container and
certificate lists returned by the two enumeration commands: cross-reference
the configured container name to a container id, then the id to a
certificate serial; strip every `0x` and lowercase.  `replace` on a
list-valued serial raises `AttributeError`. -/
def get_certificate_serial (container_name : String) (containers : List Container)
    (certificates : List Cert) : Except PyErr (Option String) :=
  match findContainerId container_name containers with
  | none => .ok none
  | some code =>
    match findCertSerial code certificates with
    | .error e => .error e
    | .ok none => .ok none
    | .ok (some (.l _)) => .error .typeError
    | .ok (some (.s serial)) => .ok (some (pyLower (String.mk (strip0x serial.data))))

end CryptoPro

namespace Tinkoff

open CryptoPro in
/-- The signer capability used by `Tinkoff._get_sign` (the lazily built
`CryptoPro` instance `self.cp`), abstracted as three fallible operations. -/
structure SignerApi where
  hashOp : String → Except CryptoProError ByteSeq
  signOp : ByteSeq → Except CryptoProError ByteSeq
  serialOp : Except CryptoProError (Option String)

/-- The Python value stored for an `Optional[str]`. -/
def serialVal : Option String → PyVal
  | some s => .pvStr s
  | none => .pvNone

/-- The three signature fields produced by `Tinkoff._get_sign`. -/
def sigFieldKeys : List String := ["DigestValue", "SignatureValue", "X509SerialNumber"]

/-- `Tinkoff._get_sign`: canonicalize the field map, hash the content, sign
the digest, fetch the certificate serial, and return the signature fields.
A `CryptoProError` from any step is re-raised unchanged. -/
def getSign (sg : SignerApi) (data : FieldMap) : Except PyErr FieldMap :=
  match sg.hashOp (signContent data) with
  | .error e => .error (.crypto e)
  | .ok digest =>
    match sg.signOp digest with
    | .error e => .error (.crypto e)
    | .ok sigBytes =>
      match sg.serialOp with
      | .error e => .error (.crypto e)
      | .ok serial =>
        .ok [("DigestValue", .pvStr (CryptoPro.to_base64 digest)),
          ("SignatureValue", .pvStr (CryptoPro.to_base64 sigBytes)),
          ("X509SerialNumber", serialVal serial)]

/-- `Tinkoff._prepare_request` on the `data` keyword argument: add the
terminal key, compute the signature fields over the resulting map, then
merge the signature fields in. -/
def prepareRequest (sg : SignerApi) (terminal : String) (data : FieldMap) :
    Except PyErr FieldMap :=
  match getSign sg (dictUpdate data "TerminalKey" (.pvStr terminal)) with
  | .error e => .error e
  | .ok sig => .ok (dictUpdateMany (dictUpdate data "TerminalKey" (.pvStr terminal)) sig)

/-- Modelled from the spec: `requests.Response.raise_for_status` belongs to
the external transport collaborator, not to this repository.  Per the spec,
transport failure is "non-2xx except the redirect range": any status outside
`[200, 299]` and outside `[300, 399]` raises an `HTTPError`. -/
def raiseForStatus (status : Nat) : Except PyErr Unit :=
  if (200 ≤ status && status ≤ 299) || (300 ≤ status && status ≤ 399) then .ok ()
  else .error (.http status)

/-- Keep only the string members of a list of JSON values; any non-string
member makes Python's `' '.join` raise `TypeError`. -/
def asStrings : List Json → Option (List String)
  | [] => some []
  | .str s :: rest => (asStrings rest).map (s :: ·)
  | _ :: _ => none

/-- The `result['URL'] = response.headers['Location']` step of
`Tinkoff._prepare_response`, applied when the status is in `[300, 399]`. -/
def injectURL (status : Nat) (headers : List (String × String)) (result : Json) :
    Except PyErr Json :=
  if 300 ≤ status && status ≤ 399 then
    match List.lookup "Location" headers with
    | none => .error (.keyError "Location")
    | some loc =>
      match result with
      | .obj d => .ok (.obj (dictUpdate d "URL" (.str loc)))
      | _ => .error .typeError
  else .ok result

/-- `Tinkoff._prepare_response`: raise a `TinkoffError` on a falsy success
flag, wrap a bare array into `{items: ...}`, and inject the redirect URL
for a 3xx status. -/
def prepareResponse (status : Nat) (headers : List (String × String)) (body : Json) :
    Except PyErr Json :=
  match body with
  | .obj d =>
    match List.lookup "Success" d with
    | none => .error (.keyError "Success")
    | some v =>
      if v.truthy then injectURL status headers (.obj d)
      else
        match asStrings (([List.lookup "Details" d, List.lookup "Message" d].filterMap
            id).filter Json.truthy) with
        | none => .error .typeError
        | some parts =>
          .error (.tinkoff ⟨String.intercalate " " parts,
            (List.lookup "ErrorCode" d).getD (.str "-1")⟩)
  | .arr xs => injectURL status headers (.obj [("items", .arr xs)])
  | other => injectURL status headers other

/-- The transport's answer to one request: HTTP status, response headers,
decoded JSON body. -/
structure HttpResponse where
  status : Nat
  headers : List (String × String)
  body : Json

/-- `Tinkoff._request`, given the transport's response: prepare and sign the
request, check the HTTP status (`raise_for_status`), then interpret the
body. -/
def tinkoffRequest (sg : SignerApi) (terminal : String) (data : FieldMap)
    (resp : HttpResponse) : Except PyErr Json :=
  match prepareRequest sg terminal data with
  | .error e => .error e
  | .ok _ =>
    match raiseForStatus resp.status with
    | .error e => .error e
    | .ok _ => prepareResponse resp.status resp.headers resp.body

/-- Python `int()` on an exact numeric value: truncation toward zero. -/
def pyInt (q : ℚ) : ℤ := if 0 ≤ q then ⌊q⌋ else ⌈q⌉

/-- `Tinkoff._process_amount`: `int(value * 100)`. -/
def processAmount (value : ℚ) : ℤ := pyInt (value * 100)

/-- `Tinkoff._join_data`: `'|'.join([ '%s=%s' % (x, data[x]) for x in data ])`. -/
def joinData (d : List (String × PyVal)) : String :=
  String.intercalate "|" (d.map fun p => p.1 ++ "=" ++ pyStr p.2)

/-- The request map built by `Tinkoff.create_payment` (lines 124-132):
required fields `OrderId`, `CardId`, `Amount`; `ClientId` and `DATA` only
when the optional arguments are given. -/
def createPaymentRequest (order_id card_id : PyVal) (amount : ℚ)
    (client_id : Option PyVal) (data : Option (List (String × PyVal))) : FieldMap :=
  let r : FieldMap :=
    [("OrderId", order_id), ("CardId", card_id), ("Amount", .pvInt (processAmount amount))]
  let r := match client_id with
    | some c => dictUpdate r "ClientId" c
    | none => r
  match data with
  | some d => dictUpdate r "DATA" (.pvStr (joinData d))
  | none => r

end Tinkoff

/-! ## General lemmas about the embedded dictionary and string operations -/

/-- `List.lookup` is stable under permutation of an association list with
duplicate-free keys. -/
theorem lookup_eq_of_perm {α : Type} (k : String) :
    ∀ {d₁ d₂ : List (String × α)}, d₁.Perm d₂ → (keysOf d₁).Nodup →
      List.lookup k d₁ = List.lookup k d₂ := by
  intro d₁ d₂ hperm
  induction hperm with
  | nil => intro _; rfl
  | cons x p ih =>
      intro hnd
      simp only [keysOf, List.map_cons, List.nodup_cons] at hnd
      simp only [List.lookup]
      split
      · rfl
      · exact ih hnd.2
  | swap x y t =>
      intro hnd
      simp only [keysOf, List.map_cons, List.nodup_cons, List.mem_cons] at hnd
      have hxy : y.1 ≠ x.1 := fun h => hnd.1 (Or.inl h)
      simp only [List.lookup]
      rcases hbx : (k == x.1) <;> rcases hby : (k == y.1) <;> simp
      exact absurd (by rw [← beq_iff_eq.mp hbx, ← beq_iff_eq.mp hby]) hxy.symm
  | trans p₁ p₂ ih₁ ih₂ =>
      intro hnd
      have hnd₂ : (keysOf _).Nodup := (p₁.map Prod.fst).nodup hnd
      exact (ih₁ hnd).trans (ih₂ hnd₂)

/-- Sorting with `≤` is constant on permutation classes of key lists. -/
theorem insertionSort_eq_of_perm (l₁ l₂ : List String) (h : l₁.Perm l₂) :
    List.insertionSort (fun a b => a ≤ b) l₁ = List.insertionSort (fun a b => a ≤ b) l₂ :=
  List.eq_of_perm_of_sorted
    ((List.perm_insertionSort _ _).trans (h.trans (List.perm_insertionSort _ _).symm))
    (List.sorted_insertionSort _ _) (List.sorted_insertionSort _ _)

/-- The canonical signing content depends only on the key-value pairs,
not on insertion order. -/
theorem signContent_eq_of_perm {d₁ d₂ : FieldMap} (hperm : d₁.Perm d₂)
    (hnd : (keysOf d₁).Nodup) : signContent d₁ = signContent d₂ := by
  unfold signContent sortedKeys
  rw [insertionSort_eq_of_perm (keysOf d₁) (keysOf d₂) (hperm.map Prod.fst)]
  have hf : (fun k => pyStr ((List.lookup k d₁).getD .pvNone))
      = fun k => pyStr ((List.lookup k d₂).getD .pvNone) :=
    funext fun k => by rw [lookup_eq_of_perm k hperm hnd]
  rw [hf]

/-- The accumulator-passing helper of `String.intercalate`, at the level of
character data. -/
theorem intercalate_go_data (sep : String) : ∀ (as : List String) (acc : String),
    (String.intercalate.go acc sep as).data
      = acc.data ++ (as.map fun a => sep.data ++ a.data).flatten := by
  intro as
  induction as with
  | nil => intro acc; simp [String.intercalate.go]
  | cons a as ih =>
      intro acc
      rw [String.intercalate.go, ih]
      simp [List.append_assoc]

/-- Unfold `List.intercalate` over a leading element. -/
theorem list_intercalate_cons {α : Type} (sep : List α) (x : List α) :
    ∀ xs : List (List α), List.intercalate sep (x :: xs)
      = x ++ (xs.map fun y => sep ++ y).flatten := by
  intro xs
  induction xs generalizing x with
  | nil => simp [List.intercalate, List.intersperse]
  | cons y ys ih =>
      simp only [List.intercalate, List.intersperse] at ih ⊢
      simp [ih, List.append_assoc]

/-- `String.intercalate` in terms of `List.intercalate` on character data. -/
theorem data_intercalate (sep : String) : ∀ ss : List String,
    (String.intercalate sep ss).data = List.intercalate sep.data (ss.map String.data) := by
  intro ss
  cases ss with
  | nil => simp [String.intercalate, List.intercalate]
  | cons a as =>
      rw [String.intercalate, intercalate_go_data, List.map_cons, list_intercalate_cons]
      simp only [List.map_map]
      rfl

/-- Joining the lines of `CryptoPro._get_lines` with `'\n'` restores the
original string. -/
theorem intercalate_getLines (s : String) :
    String.intercalate "\n" (CryptoPro.getLines s) = s := by
  apply String.ext
  rw [CryptoPro.getLines, data_intercalate]
  have h : ((s.data.splitOn '\n').map String.mk).map String.data = s.data.splitOn '\n' := by
    rw [List.map_map]
    have h2 : String.data ∘ String.mk = id := rfl
    rw [h2, List.map_id]
  rw [h]
  show List.intercalate ['\n'] (List.splitOn '\n' s.data) = s.data
  exact List.intercalate_splitOn s.data '\n'

/-! ## C1: canonical signing content -/

/-- **C1.** For every field map `M` handed to the signing step, the content
passed to the signer's hash operation is the concatenation of `str(M[k])` for
`k` ranging over `M`'s keys in ascending order with no separators, and any two
maps with the same key-value pairs (in any insertion order) produce the same
content. -/
theorem sign_content_is_sorted_concat_and_order_independent
    (d₁ d₂ : FieldMap) (hnd : (keysOf d₁).Nodup) (hperm : d₁.Perm d₂) :
    signContent d₂ = String.join
      ((List.insertionSort (fun a b => a ≤ b) (keysOf d₁)).map
        fun k => pyStr ((List.lookup k d₁).getD .pvNone))
    ∧ signContent d₁ = signContent d₂ := by
  have h := signContent_eq_of_perm hperm hnd
  exact ⟨h.symm, h⟩

/-- Concrete instance of **C1**: the two insertion orders of
`{"b": 2, "a": "x"}` canonicalize identically. -/
theorem sign_content_order_independent_witness :
    signContent [("a", PyVal.pvStr "x"), ("b", PyVal.pvInt 2)]
      = signContent [("b", PyVal.pvInt 2), ("a", PyVal.pvStr "x")] :=
  (sign_content_is_sorted_concat_and_order_independent
    [("a", PyVal.pvStr "x"), ("b", PyVal.pvInt 2)]
    [("b", PyVal.pvInt 2), ("a", PyVal.pvStr "x")]
    (by decide) (by decide)).2

/-! ## C3: coded signer errors on non-zero exit -/

/-- Lines that do not match the error pattern are skipped while no code has
been captured. -/
theorem getErrorLoop_skip (pre : List String)
    (h : ∀ l ∈ pre, CryptoPro.matchErrorLine l = none) (ls : List String) :
    CryptoPro.getErrorLoop (pre ++ ls) none = CryptoPro.getErrorLoop ls none := by
  induction pre with
  | nil => rfl
  | cons p ps ih =>
      rw [List.cons_append, CryptoPro.getErrorLoop, h p (List.mem_cons_self p ps)]
      exact ih fun l hl => h l (List.mem_cons_of_mem p hl)

/-- If no line matches the error pattern, the loop captures nothing. -/
theorem getErrorLoop_all_none (ls : List String)
    (h : ∀ l ∈ ls, CryptoPro.matchErrorLine l = none) :
    CryptoPro.getErrorLoop ls none = (none, none) := by
  induction ls with
  | nil => rfl
  | cons p ps ih =>
      rw [CryptoPro.getErrorLoop, h p (List.mem_cons_self p ps)]
      exact ih fun l hl => h l (List.mem_cons_of_mem p hl)

/-- A string whose length grows under concatenation differs from the
concatenation. -/
theorem self_ne_append (s t : String) (ht : 0 < t.length) : s ≠ s ++ t := by
  intro h
  have hl := congrArg String.length h
  rw [String.length_append] at hl
  omega

/-- On a failed invocation (non-zero exit), both signer operations raise the
error parsed from stderr. -/
theorem runSignerOp_nonzero (suffix : String) (hsuf : 0 < suffix.length)
    (pb : CryptoPro.ProcBehavior) (content : CryptoPro.ByteSeq) (fs : CryptoPro.FS)
    (hr : pb.raises = false) (hc : pb.result.returncode ≠ 0) :
    (CryptoPro.runSignerOp suffix pb content fs).1
      = .error (.crypto (CryptoPro.getError pb.result.stderr)) := by
  rw [CryptoPro.runSignerOp]
  rw [hr]
  simp only [Bool.false_eq_true, if_false]
  have hne : ((CryptoPro.freshName fs == CryptoPro.freshName fs ++ suffix) : Bool) = false :=
    beq_eq_false_iff_ne.mpr (self_ne_append _ _ hsuf)
  cases hob : pb.outBytes with
  | none =>
      simp only [CryptoPro.flushTempFile, List.lookup, beq_self_eq_true]
      rw [if_pos hc]
  | some b =>
      simp only [CryptoPro.flushTempFile, List.lookup, hne, beq_self_eq_true]
      rw [if_pos hc]

/-- **C3.** Whenever the signer process exits non-zero, `get_hash` and
`get_sign` raise the coded error parsed from stderr; a first matching
`Error number 0x<hex> (<decimal>).` line followed by a (non-matching) line
yields that decimal code and the following line as the text; when no line
matches, the whole stderr content becomes the message with code `-1`. -/
theorem signer_nonzero_exit_raises_parsed_error
    (pb : CryptoPro.ProcBehavior) (content : CryptoPro.ByteSeq) (fs : CryptoPro.FS)
    (hr : pb.raises = false) (hc : pb.result.returncode ≠ 0) :
    ((CryptoPro.get_hash pb content fs).1
        = .error (.crypto (CryptoPro.getError pb.result.stderr))
      ∧ (CryptoPro.get_sign pb content fs).1
        = .error (.crypto (CryptoPro.getError pb.result.stderr)))
    ∧ (∀ pre m t rest n, CryptoPro.getLines pb.result.stderr = pre ++ m :: t :: rest →
        (∀ l ∈ pre, CryptoPro.matchErrorLine l = none) →
        CryptoPro.matchErrorLine m = some n →
        CryptoPro.matchErrorLine t = none →
        CryptoPro.getError pb.result.stderr = ⟨t, (n : Int)⟩)
    ∧ ((∀ l ∈ CryptoPro.getLines pb.result.stderr, CryptoPro.matchErrorLine l = none) →
        CryptoPro.getError pb.result.stderr = ⟨pb.result.stderr, -1⟩) := by
  refine ⟨⟨runSignerOp_nonzero ".hash" (by decide) pb content fs hr hc,
    runSignerOp_nonzero ".sign" (by decide) pb content fs hr hc⟩, ?_, ?_⟩
  · intro pre m t rest n hlines hpre hm ht
    rw [CryptoPro.getError, hlines, getErrorLoop_skip pre hpre]
    simp only [CryptoPro.getErrorLoop, hm, ht]
  · intro hnone
    rw [CryptoPro.getError, getErrorLoop_all_none _ hnone, intercalate_getLines]

/-- Concrete instance of **C3**: exit code 1 with stderr
`Error number 0x7b (123).\nSome error` makes `get_hash` raise code 123 with
text `Some error`. -/
theorem signer_error_parsing_witness :
    (CryptoPro.get_hash ⟨false, ⟨1, "", "Error number 0x7b (123).\nSome error"⟩, none⟩
        [] []).1
      = .error (.crypto ⟨"Some error", 123⟩) := by
  have h := signer_nonzero_exit_raises_parsed_error
    ⟨false, ⟨1, "", "Error number 0x7b (123).\nSome error"⟩, none⟩ [] [] rfl (by decide)
  have h2 := h.2.1 [] "Error number 0x7b (123)." "Some error" [] 123
    (by decide) (by intro l hl; cases hl) (by decide) (by decide)
  rw [h.1.1, h2]
  rfl

/-! ## C6: temporary file lifecycle -/

/-- A key longer than every key in the filesystem is absent from it. -/
theorem lookup_none_of_length_gt (k : String) :
    ∀ fs : CryptoPro.FS, (∀ p ∈ fs, p.1.length < k.length) → List.lookup k fs = none := by
  intro fs
  induction fs with
  | nil => intro _; rfl
  | cons p ps ih =>
      intro h
      have hne : (k == p.1) = false := by
        refine beq_eq_false_iff_ne.mpr fun hk => ?_
        have := h p (List.mem_cons_self p ps)
        rw [← hk] at this
        omega
      rw [List.lookup, hne]
      exact ih fun q hq => h q (List.mem_cons_of_mem p hq)

/-- Every key of the filesystem is bounded by the running maximum of key
lengths. -/
theorem length_le_foldr_max : ∀ (fs : CryptoPro.FS), ∀ p ∈ fs,
    p.1.length ≤ (fs.map fun q => q.1.length).foldr max 0 := by
  intro fs
  induction fs with
  | nil => intro p hp; cases hp
  | cons q qs ih =>
      intro p hp
      rw [List.map_cons, List.foldr_cons]
      rcases List.mem_cons.mp hp with h | h
      · rw [h]; exact Nat.le_max_left _ _
      · exact Nat.le_trans (ih p h) (Nat.le_max_right _ _)

/-- The fresh temporary name (and any extension of it) is absent from the
filesystem it was generated for. -/
theorem freshName_lookup_none (fs : CryptoPro.FS) (suffix : String) :
    List.lookup (CryptoPro.freshName fs ++ suffix) fs = none := by
  apply lookup_none_of_length_gt
  intro p hp
  have h1 : p.1.length ≤ (fs.map fun q => q.1.length).foldr max 0 :=
    length_le_foldr_max fs p hp
  have h2 : (CryptoPro.freshName fs).length
      = (fs.map fun q => q.1.length).foldr max 0 + 1 := by
    show (List.replicate ((fs.map fun q => q.1.length).foldr max 0 + 1) 'a').length = _
    rw [List.length_replicate]
  rw [String.length_append]
  omega

/-- On a successful invocation that writes `B` to the output file, the signer
operation returns `B` and restores the filesystem exactly. -/
theorem runSignerOp_success (suffix : String) (hsuf : 0 < suffix.length)
    (pb : CryptoPro.ProcBehavior) (content B : CryptoPro.ByteSeq) (fs : CryptoPro.FS)
    (hr : pb.raises = false) (h0 : pb.result.returncode = 0) (hB : pb.outBytes = some B) :
    CryptoPro.runSignerOp suffix pb content fs = (.ok B, fs) := by
  rw [CryptoPro.runSignerOp, hr]
  simp only [Bool.false_eq_true, if_false, hB]
  have hne : ((CryptoPro.freshName fs == CryptoPro.freshName fs ++ suffix) : Bool) = false :=
    beq_eq_false_iff_ne.mpr (self_ne_append _ _ hsuf)
  have hne' : ((CryptoPro.freshName fs ++ suffix == CryptoPro.freshName fs) : Bool) = false :=
    beq_eq_false_iff_ne.mpr (Ne.symm (self_ne_append _ _ hsuf))
  simp only [CryptoPro.flushTempFile, List.lookup, hne, beq_self_eq_true,
    CryptoPro.eraseKey, List.eraseP, hne', cond_false, cond_true]
  rw [if_neg (by rw [h0]; exact fun h => h rfl)]

/-- On a non-zero exit where the process wrote no output file, the input
temporary file is still removed and the filesystem is restored. -/
theorem runSignerOp_nonzero_cleanup (suffix : String)
    (pb : CryptoPro.ProcBehavior) (content : CryptoPro.ByteSeq) (fs : CryptoPro.FS)
    (hr : pb.raises = false) (hc : pb.result.returncode ≠ 0) (hB : pb.outBytes = none) :
    (CryptoPro.runSignerOp suffix pb content fs).2 = fs := by
  rw [CryptoPro.runSignerOp, hr]
  simp only [Bool.false_eq_true, if_false, hB]
  simp only [CryptoPro.flushTempFile, List.lookup, beq_self_eq_true,
    CryptoPro.eraseKey, List.eraseP, cond_true]
  rw [if_pos hc]

/-- **C6 (amended).** On the success path (process exits 0 after writing `B`
to the output resource) both `get_hash` and `get_sign` return exactly `B` and
restore the filesystem, so the input and output temporary resources (fresh
for the call) no longer exist afterwards; on a non-zero exit where the
process wrote no output, the input temporary file is likewise removed.
(The original claim fails on the invocation-failure path.) -/
theorem temp_files_cleanup_success_and_nonzero
    (pb : CryptoPro.ProcBehavior) (content : CryptoPro.ByteSeq) (fs : CryptoPro.FS)
    (hr : pb.raises = false) :
    (∀ B, pb.outBytes = some B → pb.result.returncode = 0 →
      CryptoPro.get_hash pb content fs = (.ok B, fs)
        ∧ CryptoPro.get_sign pb content fs = (.ok B, fs))
    ∧ (pb.outBytes = none → pb.result.returncode ≠ 0 →
      (CryptoPro.get_hash pb content fs).2 = fs
        ∧ (CryptoPro.get_sign pb content fs).2 = fs)
    ∧ List.lookup (CryptoPro.freshName fs) fs = none
    ∧ List.lookup (CryptoPro.freshName fs ++ ".hash") fs = none
    ∧ List.lookup (CryptoPro.freshName fs ++ ".sign") fs = none := by
  refine ⟨?_, ?_, ?_, freshName_lookup_none fs ".hash", freshName_lookup_none fs ".sign"⟩
  · intro B hB h0
    exact ⟨runSignerOp_success ".hash" (by decide) pb content B fs hr h0 hB,
      runSignerOp_success ".sign" (by decide) pb content B fs hr h0 hB⟩
  · intro hB hc
    exact ⟨runSignerOp_nonzero_cleanup ".hash" pb content fs hr hc hB,
      runSignerOp_nonzero_cleanup ".sign" pb content fs hr hc hB⟩
  · have h := freshName_lookup_none fs ""
    rwa [String.append_empty] at h

/-- Concrete instance of **C6 (amended)**: a successful call returns the
output bytes and leaves no temporary file; a failed (non-zero exit) call
still removes the input file. -/
theorem temp_files_cleanup_witness :
    CryptoPro.get_hash ⟨false, ⟨0, "", ""⟩, some [7, 8]⟩ [1, 2] [] = (.ok [7, 8], [])
    ∧ (CryptoPro.get_hash ⟨false, ⟨1, "", "boom"⟩, none⟩ [1] []).2 = [] := by
  have h1 := temp_files_cleanup_success_and_nonzero ⟨false, ⟨0, "", ""⟩, some [7, 8]⟩
    [1, 2] [] rfl
  have h2 := temp_files_cleanup_success_and_nonzero ⟨false, ⟨1, "", "boom"⟩, none⟩ [1] [] rfl
  exact ⟨(h1.1 [7, 8] rfl rfl).1, (h2.2.1 rfl (by decide)).1⟩

/-- **C6 (counterexample).** When the process invocation itself fails
(`subprocess.run` raises, e.g. the executable is missing), `get_hash` has
already created its input temporary file and never deletes it: starting from
an empty filesystem, the call errors out yet the file (named `a` here)
remains. -/
theorem temp_file_leak_on_invocation_failure :
    (CryptoPro.get_hash ⟨true, ⟨0, "", ""⟩, none⟩ [] []).1 = .error .invocationError
    ∧ (CryptoPro.get_hash ⟨true, ⟨0, "", ""⟩, none⟩ [] []).2
        = [(CryptoPro.freshName [], [])]
    ∧ CryptoPro.freshName [] = "a" :=
  ⟨rfl, rfl, rfl⟩

/-! ## C2: the signature is computed before the signature fields are merged -/

/-- `dictUpdate` with a fresh key appends the binding. -/
theorem dictUpdate_of_not_mem {α : Type} (d : List (String × α)) (k : String) (v : α)
    (h : k ∉ keysOf d) : dictUpdate d k v = d ++ [(k, v)] := by
  rw [dictUpdate, if_neg]
  intro hc
  exact h (List.elem_iff.mp hc)

/-- A key of `dictUpdate d k v` is a key of `d` or is `k`. -/
theorem mem_keysOf_dictUpdate {α : Type} (d : List (String × α)) (k k' : String) (v : α)
    (h : k' ∈ keysOf (dictUpdate d k v)) : k' ∈ keysOf d ∨ k' = k := by
  rw [dictUpdate] at h
  split at h
  · left
    rw [keysOf, List.map_map] at h
    rcases List.mem_map.mp h with ⟨p, hp, he⟩
    refine List.mem_map.mpr ⟨p, hp, ?_⟩
    by_cases hpk : p.1 = k
    · simpa [hpk] using he
    · simpa [hpk] using he
  · rw [keysOf, List.map_append] at h
    rcases List.mem_append.mp h with h | h
    · exact Or.inl h
    · right
      simpa using h

/-- `dict.update(e)` with keys disjoint from `d` (and duplicate-free in `e`)
appends `e`'s bindings in order. -/
theorem dictUpdateMany_append_of_fresh {α : Type} :
    ∀ (e d : List (String × α)), (∀ k ∈ keysOf e, k ∉ keysOf d) → (keysOf e).Nodup →
      dictUpdateMany d e = d ++ e := by
  intro e
  induction e with
  | nil => intro d _ _; simp [dictUpdateMany]
  | cons p ps ih =>
      intro d h hnd
      simp only [keysOf, List.map_cons, List.nodup_cons] at hnd
      have h1 : dictUpdate d p.1 p.2 = d ++ [p] := by
        rw [dictUpdate_of_not_mem d p.1 p.2
          (h p.1 (by rw [keysOf, List.map_cons]; exact List.mem_cons_self _ _))]
      have h2 : ∀ k ∈ keysOf ps, k ∉ keysOf (d ++ [p]) := by
        intro k hk hmem
        rw [keysOf, List.map_append] at hmem
        rcases List.mem_append.mp hmem with hm | hm
        · exact h k (by rw [keysOf, List.map_cons]; exact List.mem_cons_of_mem _ hk) hm
        · simp at hm
          exact hnd.1 (hm ▸ hk)
      have := ih (d ++ [p]) h2 hnd.2
      simp only [dictUpdateMany, List.foldl_cons] at this ⊢
      rw [show dictUpdate d p.1 p.2 = d ++ [p] from h1, this, List.append_assoc,
        List.singleton_append]

/-- A successful `Tinkoff._get_sign` run exposes its intermediate digest,
signature and serial, and returns exactly the three signature fields. -/
theorem getSign_ok_shape (sg : Tinkoff.SignerApi) (data sig : FieldMap)
    (h : Tinkoff.getSign sg data = .ok sig) :
    ∃ digest sigBytes serial,
      sg.hashOp (signContent data) = .ok digest
      ∧ sg.signOp digest = .ok sigBytes
      ∧ sg.serialOp = .ok serial
      ∧ sig = [("DigestValue", .pvStr (CryptoPro.to_base64 digest)),
          ("SignatureValue", .pvStr (CryptoPro.to_base64 sigBytes)),
          ("X509SerialNumber", Tinkoff.serialVal serial)] := by
  unfold Tinkoff.getSign at h
  split at h
  · exact Except.noConfusion h
  · rename_i digest hd
    split at h
    · exact Except.noConfusion h
    · rename_i sigBytes hs
      split at h
      · exact Except.noConfusion h
      · rename_i serial hserial
        exact ⟨digest, sigBytes, serial, hd, hs, hserial, (Except.ok.injEq _ _ ▸ h).symm⟩

/-- **C2.** `Tinkoff._prepare_request` first adds `TerminalKey`, computes the
signature fields over exactly that map — which is the transmitted map minus
the signature fields — and only then merges `DigestValue`, `SignatureValue`
and `X509SerialNumber` in; the signed map never contains a signature field. -/
theorem prepare_request_signs_exact_transmitted_fields
    (sg : Tinkoff.SignerApi) (terminal : String) (data final : FieldMap)
    (hdata : ∀ k ∈ Tinkoff.sigFieldKeys, k ∉ keysOf data)
    (hok : Tinkoff.prepareRequest sg terminal data = .ok final) :
    ∃ sig, Tinkoff.getSign sg (dictUpdate data "TerminalKey" (.pvStr terminal)) = .ok sig
      ∧ keysOf sig = Tinkoff.sigFieldKeys
      ∧ final = dictUpdate data "TerminalKey" (.pvStr terminal) ++ sig
      ∧ final.filter (fun p => !(Tinkoff.sigFieldKeys.contains p.1))
          = dictUpdate data "TerminalKey" (.pvStr terminal)
      ∧ ∀ k ∈ Tinkoff.sigFieldKeys,
          k ∉ keysOf (dictUpdate data "TerminalKey" (.pvStr terminal)) := by
  unfold Tinkoff.prepareRequest at hok
  split at hok
  · exact Except.noConfusion hok
  · rename_i sig hsig
    have hfinal : final = dictUpdateMany (dictUpdate data "TerminalKey" (.pvStr terminal)) sig :=
      (Except.ok.injEq _ _ ▸ hok).symm
    have hdisj : ∀ k ∈ Tinkoff.sigFieldKeys,
        k ∉ keysOf (dictUpdate data "TerminalKey" (.pvStr terminal)) := by
      intro k hk hmem
      rcases mem_keysOf_dictUpdate data "TerminalKey" k (.pvStr terminal) hmem with h | h
      · exact hdata k hk h
      · subst h
        revert hk
        decide
    rcases getSign_ok_shape sg _ sig hsig with ⟨digest, sigBytes, serial, _, _, _, hshape⟩
    have hkeys : keysOf sig = Tinkoff.sigFieldKeys := by rw [hshape]; rfl
    have hmerge : dictUpdateMany (dictUpdate data "TerminalKey" (.pvStr terminal)) sig
        = dictUpdate data "TerminalKey" (.pvStr terminal) ++ sig := by
      refine dictUpdateMany_append_of_fresh sig _ ?_ ?_
      · intro k hk
        exact hdisj k (hkeys ▸ hk)
      · rw [hkeys]
        decide
    refine ⟨sig, hsig, hkeys, by rw [hfinal, hmerge], ?_, hdisj⟩
    rw [hfinal, hmerge, List.filter_append]
    have hl : (dictUpdate data "TerminalKey" (.pvStr terminal)).filter
        (fun p => !(Tinkoff.sigFieldKeys.contains p.1))
        = dictUpdate data "TerminalKey" (.pvStr terminal) := by
      refine List.filter_eq_self.mpr fun p hp => ?_
      have : p.1 ∉ Tinkoff.sigFieldKeys := by
        intro hin
        exact hdisj p.1 hin (List.mem_map.mpr ⟨p, hp, rfl⟩)
      simp [List.elem_iff, this]
    have hr : sig.filter (fun p => !(Tinkoff.sigFieldKeys.contains p.1)) = [] := by
      rw [hshape]
      rfl
    rw [hl, hr, List.append_nil]

/-- Concrete instance of **C2**, with a one-field request map and a signer
capability returning fixed bytes. -/
theorem prepare_request_witness :
    ∃ sig, Tinkoff.getSign ⟨fun _ => .ok [1], fun _ => .ok [2], .ok (some "ab")⟩
        (dictUpdate [("PaymentId", PyVal.pvInt 1)] "TerminalKey" (.pvStr "t")) = .ok sig
      ∧ keysOf sig = Tinkoff.sigFieldKeys
      ∧ [("PaymentId", PyVal.pvInt 1), ("TerminalKey", PyVal.pvStr "t"),
          ("DigestValue", PyVal.pvStr "AQ=="), ("SignatureValue", PyVal.pvStr "Ag=="),
          ("X509SerialNumber", PyVal.pvStr "ab")]
          = dictUpdate [("PaymentId", PyVal.pvInt 1)] "TerminalKey" (.pvStr "t") ++ sig
      ∧ ([("PaymentId", PyVal.pvInt 1), ("TerminalKey", PyVal.pvStr "t"),
          ("DigestValue", PyVal.pvStr "AQ=="), ("SignatureValue", PyVal.pvStr "Ag=="),
          ("X509SerialNumber", PyVal.pvStr "ab")]).filter
            (fun p => !(Tinkoff.sigFieldKeys.contains p.1))
          = dictUpdate [("PaymentId", PyVal.pvInt 1)] "TerminalKey" (.pvStr "t")
      ∧ ∀ k ∈ Tinkoff.sigFieldKeys,
          k ∉ keysOf (dictUpdate [("PaymentId", PyVal.pvInt 1)] "TerminalKey" (.pvStr "t")) :=
  prepare_request_signs_exact_transmitted_fields
    ⟨fun _ => .ok [1], fun _ => .ok [2], .ok (some "ab")⟩ "t"
    [("PaymentId", PyVal.pvInt 1)] _ (by decide) rfl

/-! ## C4: falsy success flag raises a coded gateway error -/

/-- **C4.** For every JSON object body whose `Success` value is falsy,
`Tinkoff._prepare_response` raises a `TinkoffError` whose code is the body's
`ErrorCode` (the string `"-1"` when absent) and whose message is the
`Details` and `Message` values joined with one space, each omitted when
absent or empty. -/
theorem failed_body_raises_coded_gateway_error
    (status : Nat) (headers : List (String × String)) (d : List (String × Json))
    (v : Json) (det msg : Option String)
    (hS : List.lookup "Success" d = some v) (hfalse : v.truthy = false)
    (hDet : List.lookup "Details" d = det.map Json.str)
    (hMsg : List.lookup "Message" d = msg.map Json.str) :
    Tinkoff.prepareResponse status headers (.obj d) = .error (.tinkoff
      ⟨String.intercalate " " ((det.toList ++ msg.toList).filter fun s => !s.isEmpty),
        (List.lookup "ErrorCode" d).getD (.str "-1")⟩) := by
  simp only [Tinkoff.prepareResponse, hS, hDet, hMsg]
  rw [if_neg (by rw [hfalse]; exact fun h => Bool.noConfusion h)]
  rcases det with _ | sd <;> rcases msg with _ | sm
  · rfl
  · rcases hsm : sm.isEmpty <;>
      simp [List.filterMap, List.filter, Json.truthy, hsm, Tinkoff.asStrings]
  · rcases hsd : sd.isEmpty <;>
      simp [List.filterMap, List.filter, Json.truthy, hsd, Tinkoff.asStrings]
  · rcases hsd : sd.isEmpty <;> rcases hsm : sm.isEmpty <;>
      simp [List.filterMap, List.filter, Json.truthy, hsd, hsm, Tinkoff.asStrings]

/-- Concrete instance of **C4**: `{Success: false, ErrorCode: "1",
Message: "Some error"}` raises a gateway error with code `"1"` and message
`Some error`. -/
theorem failed_body_witness :
    Tinkoff.prepareResponse 200 [] (.obj [("Success", .bool false), ("ErrorCode", .str "1"),
        ("Message", .str "Some error")])
      = .error (.tinkoff ⟨"Some error", .str "1"⟩) :=
  failed_body_raises_coded_gateway_error 200 []
    [("Success", .bool false), ("ErrorCode", .str "1"), ("Message", .str "Some error")]
    (.bool false) none (some "Some error") rfl rfl rfl rfl

/-! ## C5: transport errors precede body interpretation -/

/-- **C5.** When the transport returns a status outside the success and
redirect ranges, the operation raises an `HTTPError`-style transport error —
a different kind from the gateway's `TinkoffError` — before any
interpretation of the response body, whatever that body is (in particular
even if its `Success` flag is falsy). -/
theorem transport_error_precedes_body_interpretation
    (sg : Tinkoff.SignerApi) (terminal : String) (data : FieldMap)
    (resp : Tinkoff.HttpResponse)
    (hsigned : ∃ r, Tinkoff.prepareRequest sg terminal data = .ok r)
    (hstatus : ¬((200 ≤ resp.status ∧ resp.status ≤ 299)
      ∨ (300 ≤ resp.status ∧ resp.status ≤ 399))) :
    Tinkoff.tinkoffRequest sg terminal data resp = .error (.http resp.status)
    ∧ ∀ e, PyErr.http resp.status ≠ .tinkoff e := by
  rcases hsigned with ⟨r, hr⟩
  have hrs : Tinkoff.raiseForStatus resp.status = .error (.http resp.status) := by
    rw [Tinkoff.raiseForStatus, if_neg]
    intro hcon
    refine hstatus ?_
    simpa using hcon
  refine ⟨?_, fun e h => PyErr.noConfusion h⟩
  rw [Tinkoff.tinkoffRequest, hr, hrs]

/-- Concrete instance of **C5**: an HTTP 500 response whose body even
carries `Success: false` still surfaces as a transport error. -/
theorem transport_error_witness :
    Tinkoff.tinkoffRequest ⟨fun _ => .ok [1], fun _ => .ok [2], .ok (some "ab")⟩ "t" []
      ⟨500, [], .obj [("Success", Json.bool false)]⟩ = .error (.http 500) :=
  (transport_error_precedes_body_interpretation
    ⟨fun _ => .ok [1], fun _ => .ok [2], .ok (some "ab")⟩ "t" []
    ⟨500, [], .obj [("Success", Json.bool false)]⟩ ⟨_, rfl⟩ (by decide)).1

/-! ## C9: array wrapping and redirect URL injection -/

/-- **C9.** For a successful response, normalization wraps a JSON array body
as `{items: <array>}` with the array unchanged, returns an object body with
a truthy `Success` flag as-is, and for a 3xx status additionally injects a
`URL` value taken from the `Location` header. -/
theorem response_normalization_wraps_and_injects
    (status : Nat) (headers : List (String × String)) (loc : String)
    (xs : List Json) (d : List (String × Json)) (v : Json)
    (hloc : List.lookup "Location" headers = some loc)
    (hS : List.lookup "Success" d = some v) (htrue : v.truthy = true) :
    (¬(300 ≤ status ∧ status ≤ 399) →
      Tinkoff.prepareResponse status headers (.arr xs) = .ok (.obj [("items", .arr xs)])
      ∧ Tinkoff.prepareResponse status headers (.obj d) = .ok (.obj d))
    ∧ (300 ≤ status ∧ status ≤ 399 →
      Tinkoff.prepareResponse status headers (.arr xs)
        = .ok (.obj [("items", .arr xs), ("URL", .str loc)])
      ∧ Tinkoff.prepareResponse status headers (.obj d)
        = .ok (.obj (dictUpdate d "URL" (.str loc)))) := by
  constructor
  · intro hst
    have hinj : ∀ r, Tinkoff.injectURL status headers r = .ok r := by
      intro r
      rw [Tinkoff.injectURL, if_neg]
      intro hcon
      exact hst (by simpa using hcon)
    constructor
    · simp only [Tinkoff.prepareResponse, hinj]
    · simp only [Tinkoff.prepareResponse, hS, htrue, if_true, hinj]
  · intro hst
    have hcond : ((300 ≤ status && status ≤ 399) : Bool) = true := by simpa using hst
    constructor
    · simp only [Tinkoff.prepareResponse, Tinkoff.injectURL, hcond, if_true, hloc]
      rw [dictUpdate_of_not_mem _ _ _ (by simp [keysOf])]
      rfl
    · simp only [Tinkoff.prepareResponse, hS, htrue, if_true, Tinkoff.injectURL,
        hcond, hloc]

/-- Concrete instance of **C9**: a 301 array response is wrapped and carries
the redirect URL; a 200 object response with `Success: true` is unchanged. -/
theorem response_normalization_witness :
    Tinkoff.prepareResponse 301 [("Location", "http://x")] (.arr [.num 1])
      = .ok (.obj [("items", .arr [.num 1]), ("URL", .str "http://x")])
    ∧ Tinkoff.prepareResponse 200 [("Location", "http://x")]
        (.obj [("Success", .bool true)])
      = .ok (.obj [("Success", .bool true)]) := by
  have h1 := response_normalization_wraps_and_injects 301 [("Location", "http://x")]
    "http://x" [.num 1] [("Success", .bool true)] (.bool true) rfl rfl rfl
  have h2 := response_normalization_wraps_and_injects 200 [("Location", "http://x")]
    "http://x" [.num 1] [("Success", .bool true)] (.bool true) rfl rfl rfl
  exact ⟨(h1.2 (by decide)).1, (h2.1 (by decide)).2⟩

/-! ## C10: both signature fields derive from one digest -/

/-- **C10.** The `SignatureValue` attached to a request is the base64 of the
signer's sign operation applied to the digest bytes of the hash operation on
the canonical content — not to the content itself — and `DigestValue` is the
base64 of those same digest bytes. -/
theorem signature_fields_from_single_digest
    (sg : Tinkoff.SignerApi) (data fields : FieldMap)
    (hok : Tinkoff.getSign sg data = .ok fields) :
    ∃ digest sigBytes,
      sg.hashOp (signContent data) = .ok digest
      ∧ sg.signOp digest = .ok sigBytes
      ∧ List.lookup "DigestValue" fields = some (.pvStr (CryptoPro.to_base64 digest))
      ∧ List.lookup "SignatureValue" fields
          = some (.pvStr (CryptoPro.to_base64 sigBytes)) := by
  rcases getSign_ok_shape sg data fields hok with ⟨digest, sigBytes, serial, h1, h2, _, hsh⟩
  exact ⟨digest, sigBytes, h1, h2, by rw [hsh]; rfl, by rw [hsh]; rfl⟩

/-- Concrete instance of **C10**, with a signer returning fixed bytes. -/
theorem signature_fields_witness :
    ∃ digest sigBytes,
      (fun _ : String => (.ok [1] : Except CryptoProError CryptoPro.ByteSeq))
          (signContent [("x", PyVal.pvInt 5)]) = .ok digest
      ∧ (fun _ : CryptoPro.ByteSeq => (.ok [2] : Except CryptoProError CryptoPro.ByteSeq))
          digest = .ok sigBytes
      ∧ List.lookup "DigestValue" [("DigestValue", PyVal.pvStr "AQ=="),
            ("SignatureValue", PyVal.pvStr "Ag=="), ("X509SerialNumber", PyVal.pvStr "ab")]
          = some (.pvStr (CryptoPro.to_base64 digest))
      ∧ List.lookup "SignatureValue" [("DigestValue", PyVal.pvStr "AQ=="),
            ("SignatureValue", PyVal.pvStr "Ag=="), ("X509SerialNumber", PyVal.pvStr "ab")]
          = some (.pvStr (CryptoPro.to_base64 sigBytes)) :=
  signature_fields_from_single_digest
    ⟨fun _ => .ok [1], fun _ => .ok [2], .ok (some "ab")⟩
    [("x", PyVal.pvInt 5)]
    [("DigestValue", PyVal.pvStr "AQ=="), ("SignatureValue", PyVal.pvStr "Ag=="),
      ("X509SerialNumber", PyVal.pvStr "ab")] rfl

/-! ## C8: the payment-creation field map -/

/-- **C8.** `create_payment` builds exactly `{OrderId, CardId, Amount}` with
the amount converted to truncated integer minor units, adds `ClientId` and
`DATA` only when the optional arguments are given (no key at all otherwise),
and serializes `DATA` as `key=value` pairs joined by `|`. -/
theorem create_payment_request_builds_exact_map
    (order_id card_id : PyVal) (amount : ℚ) (c : Option PyVal)
    (dat : Option (List (String × PyVal))) :
    keysOf (Tinkoff.createPaymentRequest order_id card_id amount c dat)
      = ["OrderId", "CardId", "Amount"]
        ++ (match c with | some _ => ["ClientId"] | none => [])
        ++ (match dat with | some _ => ["DATA"] | none => [])
    ∧ List.lookup "OrderId" (Tinkoff.createPaymentRequest order_id card_id amount c dat)
        = some order_id
    ∧ List.lookup "CardId" (Tinkoff.createPaymentRequest order_id card_id amount c dat)
        = some card_id
    ∧ List.lookup "Amount" (Tinkoff.createPaymentRequest order_id card_id amount c dat)
        = some (.pvInt (Tinkoff.pyInt (amount * 100)))
    ∧ (∀ cv, c = some cv →
        List.lookup "ClientId" (Tinkoff.createPaymentRequest order_id card_id amount c dat)
          = some cv)
    ∧ (∀ dd, dat = some dd →
        List.lookup "DATA" (Tinkoff.createPaymentRequest order_id card_id amount c dat)
          = some (.pvStr (String.intercalate "|"
              (dd.map fun p => p.1 ++ "=" ++ pyStr p.2)))) := by
  rcases c with _ | cv <;> rcases dat with _ | dd <;>
    refine ⟨?_, ?_, ?_, ?_, ?_, ?_⟩ <;>
    simp [Tinkoff.createPaymentRequest, Tinkoff.processAmount, Tinkoff.joinData,
      dictUpdate, keysOf, List.lookup]

/-- Concrete instance of **C8**: all optional inputs given. -/
theorem create_payment_request_witness :
    keysOf (Tinkoff.createPaymentRequest (.pvStr "1") (.pvInt 1) 1 (some (.pvStr "c"))
        (some [("k", PyVal.pvStr "v")]))
      = ["OrderId", "CardId", "Amount", "ClientId", "DATA"]
    ∧ List.lookup "ClientId" (Tinkoff.createPaymentRequest (.pvStr "1") (.pvInt 1) 1
        (some (.pvStr "c")) (some [("k", PyVal.pvStr "v")])) = some (.pvStr "c")
    ∧ List.lookup "DATA" (Tinkoff.createPaymentRequest (.pvStr "1") (.pvInt 1) 1
        (some (.pvStr "c")) (some [("k", PyVal.pvStr "v")])) = some (.pvStr "k=v")
    ∧ List.lookup "Amount" (Tinkoff.createPaymentRequest (.pvStr "1") (.pvInt 1) 1
        (some (.pvStr "c")) (some [("k", PyVal.pvStr "v")]))
        = some (.pvInt (Tinkoff.pyInt (1 * 100)))
    ∧ Tinkoff.pyInt (1 * 100) = 100 := by
  have h := create_payment_request_builds_exact_map (.pvStr "1") (.pvInt 1) 1
    (some (.pvStr "c")) (some [("k", PyVal.pvStr "v")])
  refine ⟨h.1, h.2.2.2.2.1 _ rfl, (h.2.2.2.2.2 _ rfl).trans (by rfl), h.2.2.2.1, ?_⟩
  rw [Tinkoff.pyInt, if_pos (by norm_num)]
  norm_num

/-! ## C7: certificate serial cross-reference -/

/-- The container loop returns the id of the first name match. -/
theorem findContainerId_eq_find (name : String) :
    ∀ cs : List CryptoPro.Container,
      CryptoPro.findContainerId name cs
        = (cs.find? fun k => k.name == name).map CryptoPro.Container.id := by
  intro cs
  induction cs with
  | nil => rfl
  | cons c rest ih =>
      rw [CryptoPro.findContainerId]
      by_cases h : c.name = name
      · have hb : (c.name == name) = true := beq_iff_eq.mpr h
        rw [if_pos h]
        simp [List.find?_cons, hb]
      · have hb : (c.name == name) = false := beq_eq_false_iff_ne.mpr h
        rw [if_neg h, ih]
        simp [List.find?_cons, hb]

/-- Under the hypotheses that every certificate carries a `Container` field
and a `Serial` field, the certificate loop returns the `Serial` of the first
`Container` match. -/
theorem findCertSerial_eq_find (code : String) :
    ∀ certs : List CryptoPro.Cert,
      (∀ c ∈ certs, (List.lookup "Container" c).isSome) →
      (∀ c ∈ certs, (List.lookup "Serial" c).isSome) →
      CryptoPro.findCertSerial code certs
        = .ok ((certs.find? fun c => List.lookup "Container" c == some (.s code)).bind
            fun c => List.lookup "Serial" c) := by
  intro certs
  induction certs with
  | nil => intro _ _; rfl
  | cons c rest ih =>
      intro hC hS
      cases hv : List.lookup "Container" c with
      | none =>
          exact absurd (hC c (List.mem_cons_self c rest)) (by rw [hv]; simp)
      | some v =>
          simp only [CryptoPro.findCertSerial, hv]
          by_cases heq : v = .s code
          · have hb : (List.lookup "Container" c == some (CryptoPro.CertVal.s code)) = true :=
              beq_iff_eq.mpr (by rw [hv, heq])
            rw [if_pos heq]
            cases hs : List.lookup "Serial" c with
            | none =>
                exact absurd (hS c (List.mem_cons_self c rest)) (by rw [hs]; simp)
            | some sv =>
                simp [List.find?_cons, hb, hs]
          · have hb : (List.lookup "Container" c == some (CryptoPro.CertVal.s code)) = false :=
              beq_eq_false_iff_ne.mpr
                (by rw [hv]; exact fun h => heq (Option.some.inj h))
            rw [if_neg heq,
              ih (fun x hx => hC x (List.mem_cons_of_mem c hx))
                (fun x hx => hS x (List.mem_cons_of_mem c hx))]
            simp [List.find?_cons, hb]

/-- **C7 (amended).** Provided every certificate record carries a `Container`
field and a string-valued `Serial` field, `get_certificate_serial` returns
the serial of the certificate whose `Container` equals the id of the
container whose name equals the configured name — with every `0x` removed
and the result lowercased — and returns null whenever either lookup misses.
(A record lacking these fields raises instead; see the counterexample.) -/
theorem certificate_serial_cross_reference
    (name : String) (containers : List CryptoPro.Container)
    (certificates : List CryptoPro.Cert)
    (hC : ∀ c ∈ certificates, (List.lookup "Container" c).isSome)
    (hS : ∀ c ∈ certificates, ∃ s, List.lookup "Serial" c = some (.s s)) :
    CryptoPro.get_certificate_serial name containers certificates
      = .ok (((containers.find? fun k => k.name == name).map CryptoPro.Container.id).bind
          fun code => (certificates.find? fun c =>
              List.lookup "Container" c == some (.s code)).bind
            fun c => match List.lookup "Serial" c with
              | some (.s serial) =>
                  some (CryptoPro.pyLower (String.mk (CryptoPro.strip0x serial.data)))
              | _ => none) := by
  have hS' : ∀ c ∈ certificates, (List.lookup "Serial" c).isSome := by
    intro c hc
    rcases hS c hc with ⟨s, hs⟩
    rw [hs]
    rfl
  rw [CryptoPro.get_certificate_serial, findContainerId_eq_find]
  cases hf : containers.find? fun k => k.name == name with
  | none => rfl
  | some k =>
      simp only [Option.map_some', Option.some_bind]
      rw [findCertSerial_eq_find k.id certificates hC hS']
      cases hfc : certificates.find? fun c =>
          List.lookup "Container" c == some (.s k.id) with
      | none => rfl
      | some c =>
          rcases hS c (List.mem_of_find?_eq_some hfc) with ⟨s, hs⟩
          simp only [Option.some_bind, hs]

/-- Concrete instance of **C7 (amended)**: the serial `0x1A0xB` of the
matching certificate comes back as `1ab`. -/
theorem certificate_serial_witness :
    CryptoPro.get_certificate_serial "c" [⟨"id1", "other"⟩, ⟨"id2", "c"⟩]
      [[("Container", .s "idX"), ("Serial", .s "0xAB")],
        [("Container", .s "id2"), ("Serial", .s "0x1A0xB")]]
      = .ok (some "1ab") := by
  have h := certificate_serial_cross_reference "c" [⟨"id1", "other"⟩, ⟨"id2", "c"⟩]
    [[("Container", .s "idX"), ("Serial", .s "0xAB")],
      [("Container", .s "id2"), ("Serial", .s "0x1A0xB")]]
    (by intro c hc; rcases List.mem_cons.mp hc with h | h
        · subst h; rfl
        · rcases List.mem_cons.mp h with h2 | h2
          · subst h2; rfl
          · cases h2)
    (by intro c hc; rcases List.mem_cons.mp hc with h | h
        · subst h; exact ⟨"0xAB", rfl⟩
        · rcases List.mem_cons.mp h with h2 | h2
          · subst h2; exact ⟨"0x1A0xB", rfl⟩
          · cases h2)
  exact h.trans (congrArg Except.ok (by decide))

/-- **C7 (counterexample).** A certificate record lacking the `Container`
field makes the cross-reference raise a key-lookup error instead of
returning null, although no certificate matches the container id. -/
theorem certificate_serial_keyerror_counterexample :
    CryptoPro.get_certificate_serial "c" [⟨"id1", "c"⟩] [[]]
      = .error (.keyError "Container")
    ∧ ∀ o : Option String,
        (Except.error (PyErr.keyError "Container") : Except PyErr (Option String))
          ≠ .ok o :=
  ⟨rfl, fun _ h => Except.noConfusion h⟩

end TinkoffE2C
